import Mathlib

/-!
Verification development for the Virtual Tour Editor server.

The development shallowly embeds the persistence gateway
(src/database/mod.rs), the importer (src/importer.rs) and the session
registry dispatch (src/main.rs).  The editor module of the repository
(the in-memory Tour Graph and the editor command processor) is absent
from the source tree, so those parts are modelled from the design
specification; each such definition is marked in its doc comment.

Machine floating point payloads (the f32 world coordinates and view
angles) are never computed with by any of the embedded operations: the
gateway and the graph only store and copy them.  They are therefore
represented by an abstract copied value type, here Int.
-/

namespace VTour

/-- f32 payload values.  The embedded code only stores and copies these,
never performs arithmetic on them, so an abstract value type suffices. -/
abbrev Coord := Int

/-- A row of the tours table (src/tour/mod.rs and the tours schema):
id, owner, tour_name, location and the nullable initial_scene_id.
Timestamp columns are elided: no embedded claim observes them. -/
structure TourRow where
  id : Int
  owner : String
  name : String
  location : String
  initialSceneId : Option Int
  deriving Repr, DecidableEq

/-- A row of the assets table: scenes (is_scene = 1) and closeups
(is_scene = 0) of a tour, with the optional file path and view data. -/
structure AssetRow where
  id : Int
  tourId : Int
  name : String
  filePath : Option String
  isScene : Bool
  viewX : Coord
  viewY : Coord
  northDir : Option Coord
  descr : Option String
  deriving Repr, DecidableEq

/-- A row of the connections table: the owning (start) scene, the
optional end scene, the transition flag, optional name, the world
position and the optional asset file path. -/
structure ConnRow where
  id : Int
  tourId : Int
  startId : Int
  endId : Option Int
  isTransition : Bool
  name : Option String
  lon : Coord
  lat : Coord
  filePath : Option String
  deriving Repr, DecidableEq

/-- The durable store reached through the persistence gateway: the three
tables, the asset files on disk, and the rowid counters that SQLite uses
to assign ids on insert. -/
structure Store where
  tours : List TourRow
  assets : List AssetRow
  conns : List ConnRow
  files : List String
  nextTourId : Int
  nextAssetId : Int
  nextConnId : Int
  deriving Repr, DecidableEq

/-- Database.create_tour (src/database/mod.rs:254): inserts a tours row
with the given owner, name and location; the initial_scene_id column is
populated with the literal 1 from the INSERT statement, regardless of
which scenes exist.  Returns last_insert_rowid. -/
def create_tour (st : Store) (username tour_name location : String) :
    Int × Store :=
  let row : TourRow :=
    { id := st.nextTourId
      owner := username
      name := tour_name
      location := location
      initialSceneId := some 1 }
  (st.nextTourId,
    { st with tours := st.tours ++ [row], nextTourId := st.nextTourId + 1 })

/-- Database.save_scene (src/database/mod.rs:455): inserts an assets row
with is_scene = 1, defaulting the view coordinates to 0, and returns
last_insert_rowid. -/
def save_scene (st : Store) (tour_id : Int) (name file_path : String)
    (initial_view_x initial_view_y north_direction : Option Coord) :
    Int × Store :=
  let row : AssetRow :=
    { id := st.nextAssetId
      tourId := tour_id
      name := name
      filePath := some file_path
      isScene := true
      viewX := initial_view_x.getD 0
      viewY := initial_view_y.getD 0
      northDir := north_direction
      descr := none }
  (st.nextAssetId,
    { st with assets := st.assets ++ [row], nextAssetId := st.nextAssetId + 1 })

/-- Database.delete_scene (src/database/mod.rs:529): first
DELETE FROM connections WHERE start_id = ?1 OR end_id = ?1, then
DELETE FROM assets WHERE id = ?1.  The tours table (in particular any
initial_scene_id pointer) is not touched. -/
def delete_scene (st : Store) (scene_db_id : Int) : Store :=
  { st with
    conns := st.conns.filter
      (fun c => !(c.startId == scene_db_id || c.endId == some scene_db_id))
    assets := st.assets.filter (fun a => !(a.id == scene_db_id)) }

/-- Database.set_initial_scene (src/database/mod.rs:545): UPDATE tours
SET initial_scene_id = ?1 WHERE id = ?2. -/
def set_initial_scene (st : Store) (tour_id scene_id : Int) : Store :=
  { st with
    tours := st.tours.map
      (fun t => if t.id == tour_id then { t with initialSceneId := some scene_id } else t) }

/-- Database.clear_initial_scene (src/database/mod.rs:555): UPDATE tours
SET initial_scene_id = NULL WHERE id = ?1. -/
def clear_initial_scene (st : Store) (tour_id : Int) : Store :=
  { st with
    tours := st.tours.map
      (fun t => if t.id == tour_id then { t with initialSceneId := none } else t) }

/-- Column list of the INSERT statement in Database.save_connection
(src/database/mod.rs:593), transcribed verbatim from the source. -/
def save_connection_columns : List String :=
  ["tour_id", "start_id", "end_id", "is_transition", "name",
   "world_lon", "world_lat", "file_path"]

/-- Number of placeholders in the VALUES clause of the same INSERT
statement: the source writes VALUES (?1, ?2, ?3, ?4, ?5, ?6, ?7). -/
def save_connection_placeholders : Nat := 7

/-- Database.save_connection (src/database/mod.rs:591): the INSERT
statement names eight columns but supplies only seven placeholder
values, so SQLite rejects the statement when it is prepared (a column
list and a VALUES list of different lengths is a prepare-time error) and
the call returns Err without inserting anything.  The else branch below
records the row the function was evidently meant to insert. -/
def save_connection (st : Store) (tour_id start_scene_db_id : Int)
    (end_scene_db_id : Option Int) (world_lon world_lat : Coord)
    (is_transition : Bool) (name file_path : Option String) :
    Except String (Int × Store) :=
  if save_connection_columns.length ≠ save_connection_placeholders then
    Except.error "8 values for 7 columns"
  else
    let row : ConnRow :=
      { id := st.nextConnId
        tourId := tour_id
        startId := start_scene_db_id
        endId := end_scene_db_id
        isTransition := is_transition
        name := name
        lon := world_lon
        lat := world_lat
        filePath := file_path }
    Except.ok (st.nextConnId,
      { st with conns := st.conns ++ [row], nextConnId := st.nextConnId + 1 })

/-- Database.update_connection (src/database/mod.rs:610): builds an
UPDATE statement from exactly the supplied fields.  When every argument
is None the generated SQL has an empty SET clause and fails to prepare;
otherwise the row with the given id receives the supplied values and
keeps the rest. -/
def update_connection (st : Store) (connection_db_id : Int)
    (end_scene_db_id : Option Int) (world_lon world_lat : Option Coord)
    (name : Option String) : Except String Store :=
  if end_scene_db_id.isNone && world_lon.isNone && world_lat.isNone
      && name.isNone then
    Except.error "empty SET clause"
  else
    Except.ok
      { st with
        conns := st.conns.map (fun c =>
          if c.id == connection_db_id then
            { c with
              endId := match end_scene_db_id with
                | some v => some v
                | none => c.endId
              lon := world_lon.getD c.lon
              lat := world_lat.getD c.lat
              name := match name with
                | some v => some v
                | none => c.name }
          else c) }

/-- Database.delete_connection (src/database/mod.rs:652):
DELETE FROM connections WHERE id = ?1. -/
def delete_connection (st : Store) (connection_db_id : Int) : Store :=
  { st with conns := st.conns.filter (fun c => !(c.id == connection_db_id)) }

/-- The leading slash strip applied to stored file paths before deleting
the file (src/database/mod.rs:301). -/
def strip_slash (p : String) : String :=
  match p.data with
  | '/' :: r => String.mk r
  | _ => p

/-- Database.delete_tour (src/database/mod.rs:277): first checks that a
tours row with this id and owner exists and returns Ok(false) with no
deletion when it does not; otherwise deletes the asset files named by
this tour, then the connections, the assets and the tour row, and
returns whether a tour row was deleted. -/
def delete_tour (st : Store) (username : String) (tour_id : Int) :
    Except String (Bool × Store) :=
  if st.tours.any (fun t => t.id == tour_id && t.owner == username) then
    let filePaths : List String :=
      (st.assets.filter (fun a => a.tourId == tour_id && a.filePath.isSome)).filterMap
        (fun a => a.filePath)
    let st1 : Store :=
      { st with
        files := st.files.filter
          (fun f => !(filePaths.any (fun p => strip_slash p == f)))
        conns := st.conns.filter (fun c => !(c.tourId == tour_id))
        assets := st.assets.filter (fun a => !(a.tourId == tour_id))
        tours := st.tours.filter
          (fun t => !(t.id == tour_id && t.owner == username)) }
    Except.ok (st.tours.any (fun t => t.id == tour_id && t.owner == username), st1)
  else
    Except.ok (false, st)

/-- A small store used by the concrete witnesses: one tour owned by
"alice" with two scenes and two connections. -/
def exStore : Store :=
  { tours := [{ id := 1, owner := "alice", name := "Loft", location := "",
                initialSceneId := some 10 }]
    assets :=
      [{ id := 10, tourId := 1, name := "Lobby", filePath := some "a.jpg",
         isScene := true, viewX := 0, viewY := 0, northDir := none, descr := none },
       { id := 11, tourId := 1, name := "Hall", filePath := some "b.jpg",
         isScene := true, viewX := 0, viewY := 0, northDir := none, descr := none }]
    conns :=
      [{ id := 20, tourId := 1, startId := 10, endId := some 11,
         isTransition := true, name := some "to hall", lon := 10, lat := -5,
         filePath := none },
       { id := 21, tourId := 1, startId := 11, endId := some 10,
         isTransition := true, name := none, lon := 3, lat := 4,
         filePath := none }]
    files := ["assets/a.jpg", "assets/b.jpg"]
    nextTourId := 2
    nextAssetId := 12
    nextConnId := 22 }

/-- The empty store: no tables rows, no files, counters at 1 (SQLite
assigns rowid 1 to the first insert of a table). -/
def emptyStore : Store :=
  { tours := [], assets := [], conns := [], files := []
    nextTourId := 1, nextAssetId := 1, nextConnId := 1 }

/-- C3: after delete_scene(s) completes successfully, no connection row
remains whose start scene is s and none whose end scene is s, the asset
row with id s is removed, every connection row referencing neither side
of s survives, and the tours table and the files are untouched. -/
theorem delete_scene_cascade (st : Store) (s : Int) :
    (∀ c ∈ (delete_scene st s).conns, c.startId ≠ s ∧ c.endId ≠ some s) ∧
    (∀ a ∈ (delete_scene st s).assets, a.id ≠ s) ∧
    (∀ c ∈ st.conns, c.startId ≠ s → c.endId ≠ some s →
      c ∈ (delete_scene st s).conns) ∧
    (delete_scene st s).tours = st.tours ∧
    (delete_scene st s).files = st.files := by
  refine ⟨?_, ?_, ?_, rfl, rfl⟩
  · intro c hc
    simp only [delete_scene, List.mem_filter, Bool.not_eq_true',
      Bool.or_eq_false_iff, beq_eq_false_iff_ne, ne_eq] at hc
    exact hc.2
  · intro a ha
    simp only [delete_scene, List.mem_filter, Bool.not_eq_true',
      beq_eq_false_iff_ne, ne_eq] at ha
    exact ha.2
  · intro c hc h1 h2
    simp only [delete_scene, List.mem_filter, Bool.not_eq_true',
      Bool.or_eq_false_iff, beq_eq_false_iff_ne, ne_eq]
    exact ⟨hc, h1, h2⟩

/-- C3 witness: the cascade property evaluated on the concrete store. -/
theorem delete_scene_cascade_witness :
    (∀ c ∈ (delete_scene exStore 10).conns, c.startId ≠ 10 ∧ c.endId ≠ some 10) ∧
    (∀ a ∈ (delete_scene exStore 10).assets, a.id ≠ 10) ∧
    (∀ c ∈ exStore.conns, c.startId ≠ 10 → c.endId ≠ some 10 →
      c ∈ (delete_scene exStore 10).conns) ∧
    (delete_scene exStore 10).tours = exStore.tours ∧
    (delete_scene exStore 10).files = exStore.files :=
  delete_scene_cascade exStore 10

/-- The connection row as update_connection patches it: supplied fields
take the supplied value, unsupplied fields keep the stored value. -/
def patchConn (c : ConnRow) (e : Option Int) (lo la : Option Coord)
    (n : Option String) : ConnRow :=
  { c with
    endId := match e with | some v => some v | none => c.endId
    lon := lo.getD c.lon
    lat := la.getD c.lat
    name := match n with | some v => some v | none => c.name }

/-- C5: when update_connection succeeds, every row with a different id
is kept as it was, the row with the given id carries exactly the
supplied fields over its prior values, and nothing else in the store
changes. -/
theorem update_connection_partial (st : Store) (cid : Int)
    (e : Option Int) (lo la : Option Coord) (n : Option String)
    (st2 : Store)
    (h : update_connection st cid e lo la n = Except.ok st2) :
    (∀ c ∈ st.conns, c.id ≠ cid → c ∈ st2.conns) ∧
    (∀ c ∈ st.conns, c.id = cid → patchConn c e lo la n ∈ st2.conns) ∧
    st2.assets = st.assets ∧ st2.tours = st.tours ∧
    st2.files = st.files ∧ st2.conns.length = st.conns.length := by
  unfold update_connection at h
  split at h
  · exact absurd h (by simp)
  · have hst2 : st2 =
        { st with
          conns := st.conns.map (fun c =>
            if c.id == cid then patchConn c e lo la n else c) } := by
      cases h
      rfl
    subst hst2
    refine ⟨?_, ?_, rfl, rfl, rfl, by simp⟩
    · intro c hc hne
      refine List.mem_map.2 ⟨c, hc, ?_⟩
      simp [hne]
    · intro c hc heq
      refine List.mem_map.2 ⟨c, hc, ?_⟩
      simp [heq]

/-- The store expected from updating connection 20 of the concrete
store with a new target and a new name. -/
def exStoreUpd : Store :=
  { exStore with
    conns :=
      [{ id := 20, tourId := 1, startId := 10, endId := some 10,
         isTransition := true, name := some "renamed", lon := 10, lat := -5,
         filePath := none },
       { id := 21, tourId := 1, startId := 11, endId := some 10,
         isTransition := true, name := none, lon := 3, lat := 4,
         filePath := none }] }

/-- C5 witness: the partial-update property at a concrete call that
supplies the target and the name but not the position. -/
theorem update_connection_partial_witness :
    update_connection exStore 20 (some 10) none none (some "renamed")
      = Except.ok exStoreUpd ∧
    ((∀ c ∈ exStore.conns, c.id ≠ 20 → c ∈ exStoreUpd.conns) ∧
     (∀ c ∈ exStore.conns, c.id = 20 →
        patchConn c (some 10) none none (some "renamed") ∈ exStoreUpd.conns) ∧
     exStoreUpd.assets = exStore.assets ∧ exStoreUpd.tours = exStore.tours ∧
     exStoreUpd.files = exStore.files ∧
     exStoreUpd.conns.length = exStore.conns.length) :=
  ⟨by rfl,
   update_connection_partial exStore 20 (some 10) none none (some "renamed")
     exStoreUpd (by rfl)⟩

/-- C6: the INSERT statement of save_connection names eight columns but
supplies seven placeholders, so the statement fails to prepare and the
call returns an error instead of inserting the connection row; here it
is evaluated at the failing input of the spec scenario (a transition
from scene 10 to scene 11 at position (10, -5) named "to hall"). -/
theorem save_connection_always_errors :
    save_connection exStore 1 10 (some 11) 10 (-5) true (some "to hall") none
      = Except.error "8 values for 7 columns" := by
  rfl

/-- C9: when no tours row with the given id and owner exists,
delete_tour returns Ok(false) and the store, including the files on
disk, is completely unchanged. -/
theorem delete_tour_no_owned_tour (st : Store) (u : String) (t : Int)
    (h : ∀ r ∈ st.tours, ¬(r.id = t ∧ r.owner = u)) :
    delete_tour st u t = Except.ok (false, st) := by
  have hany : st.tours.any (fun r => r.id == t && r.owner == u) = false := by
    simp only [List.any_eq_false, Bool.and_eq_true, beq_iff_eq]
    exact h
  simp [delete_tour, hany]

/-- C9 witness: deleting an id that "alice" does not own returns false
and leaves the concrete store intact. -/
theorem delete_tour_no_owned_tour_witness :
    delete_tour exStore "alice" 99 = Except.ok (false, exStore) :=
  delete_tour_no_owned_tour exStore "alice" 99 (by decide)

/-- C4 counterexample: a freshly created tour already violates the
claimed invariant: create_tour fills initial_scene_id with the literal 1
while the store holds no scene at all, and delete_scene removes the
scene the pointer of the concrete store names (scene 10) without
touching the pointer, leaving it dangling. -/
theorem initial_pointer_dangles :
    (create_tour emptyStore "alice" "Loft" "").2.tours =
      [{ id := 1, owner := "alice", name := "Loft", location := "",
         initialSceneId := some 1 }] ∧
    (create_tour emptyStore "alice" "Loft" "").2.assets = [] ∧
    (delete_scene exStore 10).tours =
      [{ id := 1, owner := "alice", name := "Loft", location := "",
         initialSceneId := some 10 }] ∧
    (delete_scene exStore 10).assets.all (fun a => !(a.id == 10)) = true := by
  decide

/-- C4 amended: the gateway alone does not maintain the initial-scene
invariant.  create_tour always initializes the pointer to the literal
scene id 1 irrespective of which scenes exist, delete_scene never
modifies any initial-scene pointer (even when it deletes the pointed-to
scene), and clear_initial_scene resets the pointer of its tour to NULL;
repairing a dangling pointer is left entirely to the caller. -/
theorem gateway_initial_pointer_behavior (st : Store) (u n l : String)
    (s t : Int) :
    (create_tour st u n l).2.tours =
      st.tours ++ [{ id := st.nextTourId, owner := u, name := n,
                     location := l, initialSceneId := some 1 }] ∧
    (delete_scene st s).tours = st.tours ∧
    (∀ tr ∈ (clear_initial_scene st t).tours, tr.id = t →
      tr.initialSceneId = none) := by
  refine ⟨rfl, rfl, ?_⟩
  intro tr htr hid
  simp only [clear_initial_scene, List.mem_map] at htr
  obtain ⟨t0, _, rfl⟩ := htr
  by_cases h0 : t0.id = t
  · simp [h0]
  · have : (t0.id == t) = false := by simpa using h0
    rw [this] at hid ⊢
    simp at hid
    exact absurd hid h0

/-- C4 amended witness: the pointer behavior evaluated on the concrete
store. -/
theorem gateway_initial_pointer_behavior_witness :
    (create_tour exStore "bob" "Flat" "x").2.tours =
      exStore.tours ++ [{ id := 2, owner := "bob", name := "Flat",
                          location := "x", initialSceneId := some 1 }] ∧
    (delete_scene exStore 10).tours = exStore.tours ∧
    (∀ tr ∈ (clear_initial_scene exStore 1).tours, tr.id = 1 →
      tr.initialSceneId = none) :=
  gateway_initial_pointer_behavior exStore "bob" "Flat" "x" 10 1

/-- The opening brace character (written via its code point to keep it
out of string literals). -/
def lbrace : Char := Char.ofNat 123

/-- The closing brace character. -/
def rbrace : Char := Char.ofNat 125

/-- Index of the first occurrence of a character in a character list
(the byte index returned by str::find in the source; for the ASCII
delimiters searched here the two coincide up to the char/byte view). -/
def firstIdx (c : Char) : List Char → Option Nat
  | [] => none
  | x :: xs => if x = c then some 0 else (firstIdx c xs).map (· + 1)

/-- Index of the last occurrence of a character in a character list
(str::rfind in the source). -/
def lastIdx (c : Char) (l : List Char) : Option Nat :=
  (firstIdx c l.reverse).map (fun i => l.length - 1 - i)

/-- The slice contents[start..=end] taken by parse_tourdata_js
(src/importer.rs:85): from the first opening brace to the last closing
brace, inclusive.  The none results model the two error returns when a
brace is missing, and the out-of-order case in which the Rust slice
expression would panic. -/
def extract_json_slice (l : List Char) : Option (List Char) :=
  match firstIdx lbrace l, lastIdx rbrace l with
  | some i, some j =>
      if i ≤ j + 1 then some ((l.drop i).take (j + 1 - i)) else none
  | _, _ => none

/-- parse_tourdata_js (src/importer.rs:85) with the serde_json parser
abstracted as an argument: strip everything before the first opening
brace and after the last closing brace, then hand the slice to the
parser. -/
def parse_tourdata_js {α : Type} (parse : List Char → Except String α)
    (contents : List Char) : Except String α :=
  match extract_json_slice contents with
  | some s => parse s
  | none => Except.error "No brace found in tourData.js"

/-- The wrapping the export handler puts around the tour JSON when it
writes js/tourData.js (src/main.rs:874). -/
def export_tour_js (j : List Char) : List Char :=
  "const tourData = ".data ++ j ++ [';']

/-- Helper: the first-occurrence index shifts over a clean prefix. -/
theorem firstIdx_append_of_not_mem (c : Char) (p l : List Char)
    (h : c ∉ p) : firstIdx c (p ++ l) = (firstIdx c l).map (· + p.length) := by
  induction p with
  | nil =>
    cases hfi : firstIdx c l <;> simp [hfi]
  | cons x xs ih =>
    have hx : ¬(x = c) := fun hxc => h (by simp [hxc])
    have hxs : c ∉ xs := fun hc => h (List.mem_cons_of_mem _ hc)
    cases hfi : firstIdx c l with
    | none =>
      have ihn := ih hxs
      rw [hfi] at ihn
      simp only [Option.map_none'] at ihn
      simp [firstIdx, hx, ihn, hfi]
    | some i =>
      have ihs := ih hxs
      rw [hfi] at ihs
      simp only [Option.map_some'] at ihs
      simp only [List.cons_append, firstIdx, if_neg hx, List.append_eq, ihs,
        Option.map_some', List.length_cons, Option.some.injEq]
      omega

/-- Helper: a list beginning with the searched character indexes it at
position zero. -/
theorem firstIdx_of_head (c : Char) (l : List Char) (h : l.head? = some c) :
    firstIdx c l = some 0 := by
  cases l with
  | nil => simp at h
  | cons x xs =>
    simp only [List.head?_cons, Option.some.injEq] at h
    simp [firstIdx, h]

/-- C10: for a JSON object text j that begins with an opening brace and
ends with a closing brace, parsing the exporter wrapping
"const tourData = " ++ j ++ ";" through parse_tourdata_js hands exactly
j to the JSON parser, so it yields the same value as parsing j
directly: export wrapping and importer stripping round trip. -/
theorem parse_tourdata_roundtrip {α : Type}
    (parse : List Char → Except String α) (j : List Char)
    (h1 : j.head? = some lbrace) (h2 : j.getLast? = some rbrace) :
    parse_tourdata_js parse (export_tour_js j) = parse j := by
  have hjne : j ≠ [] := by
    intro h
    rw [h] at h1
    simp at h1
  have hp : lbrace ∉ "const tourData = ".data := by decide
  have h17 : ("const tourData = ".data).length = 17 := by decide
  have hfirst : firstIdx lbrace (export_tour_js j) = some 17 := by
    unfold export_tour_js
    rw [List.append_assoc, firstIdx_append_of_not_mem lbrace _ _ hp]
    have h0 : firstIdx lbrace (j ++ [';']) = some 0 := by
      apply firstIdx_of_head
      cases j with
      | nil => exact absurd rfl hjne
      | cons x xs => simpa using h1
    rw [h0]
    decide
  have hrev : (export_tour_js j).reverse =
      ';' :: (j.reverse ++ ("const tourData = ".data).reverse) := by
    unfold export_tour_js
    rw [List.reverse_append, List.reverse_append]
    rfl
  have hjrev : j.reverse.head? = some rbrace := by
    rwa [List.head?_reverse]
  obtain ⟨t, ht⟩ : ∃ t, j.reverse = rbrace :: t := by
    cases hjr : j.reverse with
    | nil => rw [hjr] at hjrev; simp at hjrev
    | cons x xs =>
      rw [hjr] at hjrev
      simp only [List.head?_cons, Option.some.injEq] at hjrev
      exact ⟨xs, by rw [hjrev]⟩
  have hsemi : ¬(';' = rbrace) := by decide
  have h00 : firstIdx rbrace (j.reverse ++ ("const tourData = ".data).reverse)
      = some 0 := by
    rw [ht]
    simp [firstIdx]
  have hfr : firstIdx rbrace (export_tour_js j).reverse = some 1 := by
    rw [hrev]
    simp only [firstIdx, if_neg hsemi, h00, Option.map_some']
  have hlen : (export_tour_js j).length = 18 + j.length := by
    unfold export_tour_js
    simp only [List.length_append, List.length_cons, List.length_nil, h17]
    omega
  have hlast : lastIdx rbrace (export_tour_js j) = some (16 + j.length) := by
    unfold lastIdx
    rw [hfr, Option.map_some']
    congr 1
    rw [hlen]
    omega
  have hjlen : 1 ≤ j.length := by
    cases j with
    | nil => exact absurd rfl hjne
    | cons x xs => simp
  have hslice : extract_json_slice (export_tour_js j) = some j := by
    unfold extract_json_slice
    rw [hfirst, hlast]
    have hcond : (17 : Nat) ≤ 16 + j.length + 1 := by omega
    show (if 17 ≤ 16 + j.length + 1 then
        some (((export_tour_js j).drop 17).take (16 + j.length + 1 - 17))
      else none) = some j
    rw [if_pos hcond]
    have htake : 16 + j.length + 1 - 17 = j.length := by omega
    rw [htake]
    have hdrop : (export_tour_js j).drop 17 = j ++ [';'] := by
      unfold export_tour_js
      rw [List.append_assoc, ← h17, List.drop_left]
    rw [hdrop, List.take_left]
  unfold parse_tourdata_js
  rw [hslice]

/-- C10 witness: the round trip evaluated on the concrete two-character
JSON object text. -/
theorem parse_tourdata_roundtrip_witness :
    ([lbrace, rbrace].head? = some lbrace) ∧
    ([lbrace, rbrace].getLast? = some rbrace) ∧
    parse_tourdata_js Except.ok (export_tour_js [lbrace, rbrace]) =
      Except.ok [lbrace, rbrace] :=
  ⟨by decide, by decide,
   parse_tourdata_roundtrip Except.ok [lbrace, rbrace] (by decide) (by decide)⟩

/-- First-match association lookup (the role the HashMap and index maps
play in the source, with insertion order as the backing order). -/
def alookup {κ β : Type} [BEq κ] (k : κ) : List (κ × β) → Option β
  | [] => none
  | e :: es => if e.1 == k then some e.2 else alookup k es

/-- Map insertion with overwrite, as HashMap::insert behaves. -/
def insertKey {κ β : Type} [BEq κ] (m : List (κ × β)) (k : κ) (v : β) :
    List (κ × β) :=
  (k, v) :: m.filter (fun e => !(e.1 == k))

/-- The session key "username_tourid" built by the registry
(src/main.rs:267). -/
def session_key (username : List Char) (tour_id : Int) : List Char :=
  username ++ '_' :: (toString tour_id).data

/-- cleanup_user_editor_sessions (src/main.rs:315): retains exactly the
entries whose key does not start with the evicted username followed by
an underscore. -/
def cleanup_user_editor_sessions {σ : Type}
    (sessions : List (List Char × σ)) (username : List Char) :
    List (List Char × σ) :=
  sessions.filter (fun e => !(List.isPrefixOf (username ++ ['_']) e.1))

/-- C7 counterexample: evicting user "alice" also removes the session of
the different user "alice_smith" for tour 7, because that key starts
with "alice_"; so eviction can remove a session belonging to another
user. -/
theorem cleanup_removes_other_user_session :
    cleanup_user_editor_sessions
      [(session_key "alice_smith".data 7, (0 : Nat))] "alice".data = [] ∧
    "alice_smith".data ≠ "alice".data := by
  decide

/-- C7 amended: eviction removes exactly the registry entries whose key
string starts with the evicted username followed by an underscore.
Every session stored under a key built for that username is removed,
and an arbitrary entry survives exactly when its key lacks that
leading string — so a session of a different user is also removed
whenever its key happens to start with username ++ "_" (possible
because usernames may contain underscores). -/
theorem cleanup_removes_exactly_key_matches {σ : Type}
    (sessions : List (List Char × σ)) (u : List Char) :
    (∀ (t : Int) (v : σ),
      (session_key u t, v) ∉ cleanup_user_editor_sessions sessions u) ∧
    (∀ e ∈ sessions,
      (e ∈ cleanup_user_editor_sessions sessions u ↔
        ¬ List.isPrefixOf (u ++ ['_']) e.1 = true)) := by
  constructor
  · intro t v hmem
    rw [cleanup_user_editor_sessions, List.mem_filter] at hmem
    have hpref : List.isPrefixOf (u ++ ['_']) (session_key u t) = true := by
      rw [List.isPrefixOf_iff_prefix]
      unfold session_key
      have hk : u ++ '_' :: (toString t).data = (u ++ ['_']) ++ (toString t).data := by
        rw [List.append_assoc]
        rfl
      rw [hk]
      exact List.prefix_append _ _
    rw [hpref] at hmem
    simp at hmem
  · intro e he
    unfold cleanup_user_editor_sessions
    rw [List.mem_filter]
    constructor
    · intro h hcontra
      have h2 := h.2
      rw [hcontra] at h2
      simp at h2
    · intro h
      refine ⟨he, ?_⟩
      have hb : List.isPrefixOf (u ++ ['_']) e.1 = false := by
        cases hbb : List.isPrefixOf (u ++ ['_']) e.1
        · rfl
        · exact absurd hbb h
      rw [hb]
      rfl

/-- C7 amended witness: the exact-eviction property evaluated on a
registry holding one session of user "bob". -/
theorem cleanup_removes_exactly_key_matches_witness :
    (∀ (t : Int) (v : Nat),
      (session_key "bob".data t, v) ∉
        cleanup_user_editor_sessions
          [(session_key "bob".data 3, (0 : Nat))] "bob".data) ∧
    (∀ e ∈ [(session_key "bob".data 3, (0 : Nat))],
      (e ∈ cleanup_user_editor_sessions
          [(session_key "bob".data 3, (0 : Nat))] "bob".data ↔
        ¬ List.isPrefixOf ("bob".data ++ ['_']) e.1 = true)) :=
  cleanup_removes_exactly_key_matches
    [(session_key "bob".data 3, (0 : Nat))] "bob".data

/-- Modelled from the spec: a Connection of the in-memory Tour Graph
(spec section 3); the implementation (the editor module) is absent from
the source tree.  Identity, target id (a scene for transitions, an asset
for closeups, none while unassigned) and optional display name; the f32
position and the icon selector, pure copied payload, are elided. -/
structure GConn where
  cid : Int
  target : Option Int
  name : Option String
  deriving Repr, DecidableEq

/-- Modelled from the spec: a Scene of the in-memory Tour Graph (spec
section 3): identity, display name, image asset path, and the ordered
list of outgoing connections.  The optional initial-view pair and
north-direction angle, copied payload, are elided. -/
structure GScene where
  sid : Int
  name : String
  filePath : String
  conns : List GConn
  deriving Repr, DecidableEq

/-- Modelled from the spec: the Tour Graph (spec section 3): the ordered
scene collection, the nullable initial-scene pointer, and the two
derived indices: scene id to collection position, and connection id to
(owning scene id, position in the owning list). -/
structure TourGraph where
  scenes : List GScene
  initial : Option Int
  sceneIdx : List (Int × Nat)
  connIdx : List (Int × Int × Nat)
  deriving Repr, DecidableEq

/-- The connection-index entries contributed by one list of connections
owned by scene sid, starting at position k. -/
def connEntriesFrom (sid : Int) (k : Nat) : List GConn → List (Int × Int × Nat)
  | [] => []
  | c :: cs => (c.cid, sid, k) :: connEntriesFrom sid (k + 1) cs

/-- The connection-index portion derived from one scene. -/
def sceneConnEntries (s : GScene) : List (Int × Int × Nat) :=
  connEntriesFrom s.sid 0 s.conns

/-- The scene-index entries for a scene list, starting at position k. -/
def sceneEntriesFrom (k : Nat) : List GScene → List (Int × Nat)
  | [] => []
  | s :: ss => (s.sid, k) :: sceneEntriesFrom (k + 1) ss

/-- The scene index rebuilt from scratch over a scene collection. -/
def buildSceneIdx (ss : List GScene) : List (Int × Nat) :=
  sceneEntriesFrom 0 ss

/-- The connection index rebuilt from scratch over a scene collection. -/
def buildConnIdx (ss : List GScene) : List (Int × Int × Nat) :=
  ss.flatMap sceneConnEntries

/-- Modelled from the spec: insert_scene (spec 4.1): appends a Scene
under the gateway-issued id and indexes it at its appended position; the
first scene of an empty graph becomes the initial scene. -/
def insert_scene (g : TourGraph) (sid : Int) (name filePath : String) :
    TourGraph :=
  { scenes := g.scenes ++ [{ sid := sid, name := name, filePath := filePath, conns := [] }]
    initial := if g.scenes.isEmpty then some sid else g.initial
    sceneIdx := g.sceneIdx ++ [(sid, g.scenes.length)]
    connIdx := g.connIdx }

/-- Modelled from the spec: insert_connection (spec 4.1): fails with no
mutation when the owner scene id is not in the scene index; otherwise
appends the connection to the owner scene and indexes it at its appended
position. -/
def insert_connection (g : TourGraph) (owner : Int) (c : GConn) :
    TourGraph × Bool :=
  match alookup owner g.sceneIdx with
  | none => (g, false)
  | some i =>
    match g.scenes[i]? with
    | none => (g, false)
    | some s =>
      ({ g with
         scenes := g.scenes.set i { s with conns := s.conns ++ [c] }
         connIdx := g.connIdx ++ [(c.cid, owner, s.conns.length)] }, true)

/-- Modelled from the spec: remove_connection (spec 4.1): fails when the
id is not indexed; otherwise removes the connection from the owning
scene at its indexed position and re-derives that scene's portion of the
connection index, since the positions after it shift. -/
def remove_connection (g : TourGraph) (cid : Int) : TourGraph × Bool :=
  match alookup cid g.connIdx with
  | none => (g, false)
  | some (sid, pos) =>
    match alookup sid g.sceneIdx with
    | none => (g, false)
    | some i =>
      match g.scenes[i]? with
      | none => (g, false)
      | some s =>
        let s2 : GScene := { s with conns := s.conns.eraseIdx pos }
        ({ g with
           scenes := g.scenes.set i s2
           connIdx :=
             (g.connIdx.filter (fun e => !(e.2.1 == sid))) ++ sceneConnEntries s2 },
         true)

/-- Modelled from the spec: remove_scene (spec 4.1): removes the scene,
removes every connection it owns and every connection elsewhere whose
target is this scene, rebuilds the scene index, re-derives the
connection index over the surviving scenes (removal shifts positions in
every scene that lost a connection), and clears or reassigns the initial
pointer.  Returns the removed connection ids for the caller's
notifications. -/
def remove_scene (g : TourGraph) (sid : Int) : TourGraph × List Int :=
  let victims : List Int :=
    g.scenes.flatMap (fun s =>
      if s.sid == sid then s.conns.map (fun c => c.cid)
      else (s.conns.filter (fun c => c.target == some sid)).map (fun c => c.cid))
  let scenes2 : List GScene :=
    (g.scenes.filter (fun s => !(s.sid == sid))).map
      (fun s => { s with conns := s.conns.filter (fun c => !(c.target == some sid)) })
  let initial2 : Option Int :=
    if g.initial == some sid then scenes2.head?.map (fun s => s.sid) else g.initial
  ({ scenes := scenes2
     initial := initial2
     sceneIdx := buildSceneIdx scenes2
     connIdx := buildConnIdx scenes2 }, victims)

/-- The four mutation operations quantified over by the index claim. -/
inductive GraphOp where
  | addScene (sid : Int) (name filePath : String)
  | delScene (sid : Int)
  | addConn (owner : Int) (c : GConn)
  | delConn (cid : Int)
  deriving Repr, DecidableEq

/-- One operation applied to the graph. -/
def applyOp (g : TourGraph) : GraphOp → TourGraph
  | .addScene sid n fp => insert_scene g sid n fp
  | .delScene sid => (remove_scene g sid).1
  | .addConn o c => (insert_connection g o c).1
  | .delConn cid => (remove_connection g cid).1

/-- A sequence of operations applied left to right. -/
def applyOps (g : TourGraph) (ops : List GraphOp) : TourGraph :=
  ops.foldl applyOp g

/-- Every scene-index entry maps a scene id to its actual position in
the collection: the scene stored at that position carries that id. -/
def SceneIdxOk (g : TourGraph) : Prop :=
  ∀ e ∈ g.sceneIdx, ∃ s, g.scenes[e.2]? = some s ∧ s.sid = e.1

/-- Every connection-index entry maps a connection id to an existing
(owning scene, position) offset: some scene in the collection has that
scene id and holds, at that position of its connection list, a
connection with that connection id. -/
def ConnIdxOk (g : TourGraph) : Prop :=
  ∀ e ∈ g.connIdx, ∃ s ∈ g.scenes,
    s.sid = e.2.1 ∧ ∃ c, s.conns[e.2.2]? = some c ∧ c.cid = e.1

/-- The index-consistency invariant of the Tour Graph. -/
def IndexInv (g : TourGraph) : Prop := SceneIdxOk g ∧ ConnIdxOk g

/-- The graph holding no scenes at all, as first constructed for an
empty tour. -/
def emptyGraph : TourGraph :=
  { scenes := [], initial := none, sceneIdx := [], connIdx := [] }

/-- A successful association lookup exhibits its entry. -/
theorem alookup_mem {κ β : Type} [BEq κ] [LawfulBEq κ] (k : κ)
    (l : List (κ × β)) (v : β) (h : alookup k l = some v) : (k, v) ∈ l := by
  induction l with
  | nil => simp [alookup] at h
  | cons e es ih =>
    obtain ⟨e1, e2⟩ := e
    rw [alookup] at h
    by_cases hek : (e1 == k) = true
    · rw [if_pos hek] at h
      injection h with hv
      have h1 : e1 = k := eq_of_beq hek
      rw [← h1, ← hv]
      exact List.mem_cons_self _ _
    · rw [if_neg hek] at h
      exact List.mem_cons_of_mem _ (ih h)

/-- Soundness of the per-scene connection-index derivation: each entry
names the owning scene id and a position holding a connection with the
entry's connection id. -/
theorem connEntriesFrom_sound (sid : Int) (k : Nat) (cs : List GConn) :
    ∀ e ∈ connEntriesFrom sid k cs, e.2.1 = sid ∧ k ≤ e.2.2 ∧
      ∃ c, cs[e.2.2 - k]? = some c ∧ c.cid = e.1 := by
  induction cs generalizing k with
  | nil => intro e he; simp [connEntriesFrom] at he
  | cons c cs ih =>
    intro e he
    rw [connEntriesFrom] at he
    rcases List.mem_cons.1 he with h | h
    · subst h
      exact ⟨rfl, Nat.le_refl k, c, by simp, rfl⟩
    · obtain ⟨h1, h2, c', hc', hcid⟩ := ih (k + 1) e h
      refine ⟨h1, by omega, c', ?_, hcid⟩
      have hidx : e.2.2 - k = (e.2.2 - (k + 1)) + 1 := by omega
      rw [hidx]
      simpa using hc'

/-- Soundness of the connection-index portion of one scene. -/
theorem sceneConnEntries_sound (s : GScene) :
    ∀ e ∈ sceneConnEntries s, e.2.1 = s.sid ∧
      ∃ c, s.conns[e.2.2]? = some c ∧ c.cid = e.1 := by
  intro e he
  obtain ⟨h1, _, c, hc, hcid⟩ := connEntriesFrom_sound s.sid 0 s.conns e he
  rw [Nat.sub_zero] at hc
  exact ⟨h1, c, hc, hcid⟩

/-- Soundness of the scene-index derivation with a starting offset. -/
theorem sceneEntriesFrom_sound (k : Nat) (ss : List GScene) :
    ∀ e ∈ sceneEntriesFrom k ss, k ≤ e.2 ∧
      ∃ s, ss[e.2 - k]? = some s ∧ s.sid = e.1 := by
  induction ss generalizing k with
  | nil => intro e he; simp [sceneEntriesFrom] at he
  | cons s ss ih =>
    intro e he
    rw [sceneEntriesFrom] at he
    rcases List.mem_cons.1 he with h | h
    · subst h
      exact ⟨Nat.le_refl k, s, by simp, rfl⟩
    · obtain ⟨h1, s', hs', hsid⟩ := ih (k + 1) e h
      refine ⟨by omega, s', ?_, hsid⟩
      have hidx : e.2 - k = (e.2 - (k + 1)) + 1 := by omega
      rw [hidx]
      simpa using hs'

/-- A rebuilt scene index is consistent with its scene collection. -/
theorem buildSceneIdx_sound (ss : List GScene) :
    ∀ e ∈ buildSceneIdx ss, ∃ s, ss[e.2]? = some s ∧ s.sid = e.1 := by
  intro e he
  obtain ⟨_, s, hs, hsid⟩ := sceneEntriesFrom_sound 0 ss e he
  rw [Nat.sub_zero] at hs
  exact ⟨s, hs, hsid⟩

/-- A rebuilt connection index is consistent with its scene collection. -/
theorem buildConnIdx_sound (ss : List GScene) :
    ∀ e ∈ buildConnIdx ss, ∃ s ∈ ss,
      s.sid = e.2.1 ∧ ∃ c, s.conns[e.2.2]? = some c ∧ c.cid = e.1 := by
  intro e he
  rw [buildConnIdx, List.mem_flatMap] at he
  obtain ⟨s, hs, he2⟩ := he
  obtain ⟨h1, c, hc, hcid⟩ := sceneConnEntries_sound s e he2
  exact ⟨s, hs, h1.symm, c, hc, hcid⟩

/-- Any graph whose indices are rebuilt from its scene collection
satisfies the index invariant. -/
theorem rebuild_inv (ss : List GScene) (init : Option Int) :
    IndexInv { scenes := ss, initial := init
               sceneIdx := buildSceneIdx ss, connIdx := buildConnIdx ss } :=
  ⟨fun e he => buildSceneIdx_sound ss e he,
   fun e he => buildConnIdx_sound ss e he⟩

/-- insert_scene preserves the index invariant. -/
theorem insert_scene_inv (g : TourGraph) (sid : Int) (n fp : String)
    (h : IndexInv g) : IndexInv (insert_scene g sid n fp) := by
  obtain ⟨hs, hc⟩ := h
  constructor
  · intro e he
    simp only [insert_scene] at he ⊢
    rcases List.mem_append.1 he with h1 | h1
    · obtain ⟨s, hss, hsid⟩ := hs e h1
      obtain ⟨hlt, _⟩ := List.getElem?_eq_some.1 hss
      refine ⟨s, ?_, hsid⟩
      rw [List.getElem?_append, if_pos hlt]
      exact hss
    · have he2 : e = (sid, g.scenes.length) := by simpa using h1
      subst he2
      exact ⟨_, List.getElem?_concat_length _ _, rfl⟩
  · intro e he
    simp only [insert_scene] at he ⊢
    obtain ⟨s, hmem, hsid, c, hcpos, hcid⟩ := hc e he
    exact ⟨s, List.mem_append_left _ hmem, hsid, c, hcpos, hcid⟩

/-- insert_connection preserves the index invariant. -/
theorem insert_connection_inv (g : TourGraph) (o : Int) (c : GConn)
    (h : IndexInv g) : IndexInv (insert_connection g o c).1 := by
  obtain ⟨hs, hc⟩ := h
  cases hlu : alookup o g.sceneIdx with
  | none => simpa only [insert_connection, hlu] using And.intro hs hc
  | some i =>
    cases hgi : g.scenes[i]? with
    | none => simpa only [insert_connection, hlu, hgi] using And.intro hs hc
    | some s =>
      obtain ⟨s', hs', hsid'⟩ := hs (o, i) (alookup_mem o g.sceneIdx i hlu)
      rw [hgi] at hs'
      injection hs' with hss'
      have hsid : s.sid = o := by rw [hss']; exact hsid'
      have hilt : i < g.scenes.length := (List.getElem?_eq_some.1 hgi).1
      constructor
      · intro e he
        simp only [insert_connection, hlu, hgi] at he ⊢
        obtain ⟨s1, hs1, hsid1⟩ := hs e he
        by_cases hei : e.2 = i
        · refine ⟨{ s with conns := s.conns ++ [c] }, ?_, ?_⟩
          · rw [hei, List.getElem?_set_self hilt]
          · rw [hei] at hs1
            rw [hgi] at hs1
            injection hs1 with hs1e
            rw [← hs1e] at hsid1
            exact hsid1
        · refine ⟨s1, ?_, hsid1⟩
          rw [List.getElem?_set_ne (fun hie => hei hie.symm)]
          exact hs1
      · intro e he
        simp only [insert_connection, hlu, hgi] at he ⊢
        rcases List.mem_append.1 he with h1 | h1
        · obtain ⟨s1, hmem1, hsid1, c1, hc1, hcid1⟩ := hc e h1
          obtain ⟨j, hj⟩ := List.mem_iff_getElem?.1 hmem1
          by_cases hji : j = i
          · subst hji
            rw [hgi] at hj
            injection hj with hj1
            obtain ⟨hplt, _⟩ := List.getElem?_eq_some.1 hc1
            refine ⟨{ s with conns := s.conns ++ [c] },
              List.getElem?_mem (List.getElem?_set_self hilt), ?_, c1, ?_, hcid1⟩
            · show s.sid = e.2.1
              rw [← hj1] at hsid1
              exact hsid1
            · show (s.conns ++ [c])[e.2.2]? = some c1
              rw [← hj1] at hc1
              obtain ⟨hplt2, _⟩ := List.getElem?_eq_some.1 hc1
              rw [List.getElem?_append, if_pos hplt2]
              exact hc1
          · refine ⟨s1, ?_, hsid1, c1, hc1, hcid1⟩
            apply List.getElem?_mem (n := j)
            rw [List.getElem?_set_ne (fun hij => hji hij.symm)]
            exact hj
        · have he2 : e = (c.cid, o, s.conns.length) := by simpa using h1
          subst he2
          refine ⟨{ s with conns := s.conns ++ [c] },
            List.getElem?_mem (List.getElem?_set_self hilt), hsid, c, ?_, rfl⟩
          exact List.getElem?_concat_length _ _

/-- remove_connection preserves the index invariant. -/
theorem remove_connection_inv (g : TourGraph) (cid : Int)
    (h : IndexInv g) : IndexInv (remove_connection g cid).1 := by
  obtain ⟨hs, hc⟩ := h
  cases h1u : alookup cid g.connIdx with
  | none => simpa only [remove_connection, h1u] using And.intro hs hc
  | some sp =>
    obtain ⟨sid, pos⟩ := sp
    cases h2u : alookup sid g.sceneIdx with
    | none => simpa only [remove_connection, h1u, h2u] using And.intro hs hc
    | some i =>
      cases hgi : g.scenes[i]? with
      | none => simpa only [remove_connection, h1u, h2u, hgi] using And.intro hs hc
      | some s =>
        obtain ⟨s', hs', hsid'⟩ := hs (sid, i) (alookup_mem sid g.sceneIdx i h2u)
        rw [hgi] at hs'
        injection hs' with hss'
        have hsid : s.sid = sid := by rw [hss']; exact hsid'
        have hilt : i < g.scenes.length := (List.getElem?_eq_some.1 hgi).1
        constructor
        · intro e he
          simp only [remove_connection, h1u, h2u, hgi] at he ⊢
          obtain ⟨s1, hs1, hsid1⟩ := hs e he
          by_cases hei : e.2 = i
          · refine ⟨{ s with conns := s.conns.eraseIdx pos }, ?_, ?_⟩
            · rw [hei, List.getElem?_set_self hilt]
            · rw [hei, hgi] at hs1
              injection hs1 with hs1e
              rw [← hs1e] at hsid1
              exact hsid1
          · refine ⟨s1, ?_, hsid1⟩
            rw [List.getElem?_set_ne (fun hie => hei hie.symm)]
            exact hs1
        · intro e he
          simp only [remove_connection, h1u, h2u, hgi] at he ⊢
          rcases List.mem_append.1 he with h1 | h1
          · rw [List.mem_filter] at h1
            obtain ⟨h1m, h1p⟩ := h1
            have hene : e.2.1 ≠ sid := by
              simp only [Bool.not_eq_true', beq_eq_false_iff_ne, ne_eq] at h1p
              exact h1p
            obtain ⟨s1, hmem1, hsid1, c1, hc1, hcid1⟩ := hc e h1m
            obtain ⟨j, hj⟩ := List.mem_iff_getElem?.1 hmem1
            have hji : j ≠ i := by
              intro hji
              rw [hji, hgi] at hj
              injection hj with hj1
              rw [← hj1, hsid] at hsid1
              exact hene hsid1.symm
            refine ⟨s1, ?_, hsid1, c1, hc1, hcid1⟩
            apply List.getElem?_mem (n := j)
            rw [List.getElem?_set_ne (fun hij => hji hij.symm)]
            exact hj
          · obtain ⟨h1a, c1, hc1, hcid1⟩ :=
              sceneConnEntries_sound { s with conns := s.conns.eraseIdx pos } e h1
            refine ⟨{ s with conns := s.conns.eraseIdx pos },
              List.getElem?_mem (List.getElem?_set_self hilt), h1a.symm, c1, hc1, hcid1⟩

/-- remove_scene rebuilds both indices, so the index invariant holds
unconditionally after it. -/
theorem remove_scene_inv (g : TourGraph) (sid : Int) :
    IndexInv (remove_scene g sid).1 := by
  simp only [remove_scene]
  exact rebuild_inv _ _

/-- Every single operation preserves the index invariant. -/
theorem applyOp_inv (g : TourGraph) (op : GraphOp) (h : IndexInv g) :
    IndexInv (applyOp g op) := by
  cases op with
  | addScene sid n fp => exact insert_scene_inv g sid n fp h
  | delScene sid => exact remove_scene_inv g sid
  | addConn o c => exact insert_connection_inv g o c h
  | delConn cid => exact remove_connection_inv g cid h

/-- C1: for every sequence of AddScene, DeleteScene, AddConnection and
DeleteConnection operations on a Tour Graph satisfying the index
invariant, the graph after the sequence still satisfies it: every
connection-index entry maps its id to a connection existing at the
recorded (owning scene, position) offset and every scene-index entry
maps its id to the actual collection position.  Since the sequence is
arbitrary, the invariant holds after each step of any sequence. -/
theorem tour_graph_index_consistency (g : TourGraph) (ops : List GraphOp)
    (h : IndexInv g) : IndexInv (applyOps g ops) := by
  induction ops generalizing g with
  | nil => exact h
  | cons op ops ih => exact ih (applyOp g op) (applyOp_inv g op h)

/-- The scenario sequence of spec section 8: two scenes, one connection,
then the cascade delete of the target scene and a connection delete. -/
def demoOps : List GraphOp :=
  [.addScene 1 "Lobby" "a.jpg", .addScene 2 "Hall" "b.jpg",
   .addConn 1 { cid := 7, target := some 2, name := some "to hall" },
   .delScene 2, .delConn 7]

/-- C1 witness: the invariant holds for the empty graph and is carried
through the concrete scenario sequence by the theorem. -/
theorem tour_graph_index_consistency_witness :
    IndexInv emptyGraph ∧ IndexInv (applyOps emptyGraph demoOps) :=
  ⟨⟨fun e he => absurd he (by simp [emptyGraph]),
    fun e he => absurd he (by simp [emptyGraph])⟩,
   tour_graph_index_consistency emptyGraph demoOps
     ⟨fun e he => absurd he (by simp [emptyGraph]),
      fun e he => absurd he (by simp [emptyGraph])⟩⟩

/-- Modelled from the spec: the closed command set of the editor
command processor (spec 4.2).  Commands that mutate only elided payload
fields (SetInitialView, SetNorthDirection) behave like the placeholder
commands on the modelled fields and are represented by placeholder. -/
inductive EditorCmd where
  | addScene (name filePath : String)
  | swapScene (sid : Int) (newPath : String)
  | deleteScene (sid : Int)
  | updateSceneName (sid : Int) (newName : String)
  | addCloseup (name filePath : String) (parent : Int)
  | addConnection (source target : Int) (name : Option String)
  | editConnection (cid : Int) (newTarget : Option Int) (newName : Option String)
  | deleteConnection (cid : Int)
  | setInitialScene (sid : Int)
  | placeholder
  deriving Repr, DecidableEq

/-- Modelled from the spec: in-place scene patch through the scene
index (spec 4.1: lookups go through the indices, never a linear scan). -/
def mutate_scene (g : TourGraph) (sid : Int) (f : GScene → GScene) :
    TourGraph :=
  match alookup sid g.sceneIdx with
  | none => g
  | some i =>
    match g.scenes[i]? with
    | none => g
    | some s => { g with scenes := g.scenes.set i (f s) }

/-- Modelled from the spec: mutate_connection (spec 4.1): fails (no
mutation) when the id is not indexed; otherwise patches the connection
in place at its indexed (scene, position) offset. -/
def mutate_connection (g : TourGraph) (cid : Int) (f : GConn → GConn) :
    TourGraph :=
  match alookup cid g.connIdx with
  | none => g
  | some (sid, pos) =>
    match alookup sid g.sceneIdx with
    | none => g
    | some i =>
      match g.scenes[i]? with
      | none => g
      | some s =>
        match s.conns[pos]? with
        | none => g
        | some c =>
          { g with scenes := g.scenes.set i { s with conns := s.conns.set pos (f c) } }

/-- Modelled from the spec: target-existence validation of each command
(spec 4.2 and section 7, NotFound). -/
def validate (g : TourGraph) : EditorCmd → Bool
  | .addScene _ _ => true
  | .swapScene sid _ => (alookup sid g.sceneIdx).isSome
  | .deleteScene sid => (alookup sid g.sceneIdx).isSome
  | .updateSceneName sid _ => (alookup sid g.sceneIdx).isSome
  | .addCloseup _ _ parent => (alookup parent g.sceneIdx).isSome
  | .addConnection source _ _ => (alookup source g.sceneIdx).isSome
  | .editConnection cid _ _ => (alookup cid g.connIdx).isSome
  | .deleteConnection cid => (alookup cid g.connIdx).isSome
  | .setInitialScene sid => (alookup sid g.sceneIdx).isSome
  | .placeholder => true

/-- Modelled from the spec: the in-memory mutation of each command,
applied only after the write-through succeeded; newId is the id the
store assigned during the write-through (used by the creating
commands). -/
def applyCmd (g : TourGraph) (newId : Int) : EditorCmd → TourGraph
  | .addScene n fp => insert_scene g newId n fp
  | .swapScene sid p => mutate_scene g sid (fun s => { s with filePath := p })
  | .deleteScene sid => (remove_scene g sid).1
  | .updateSceneName sid n => mutate_scene g sid (fun s => { s with name := n })
  | .addCloseup n _fp parent =>
      (insert_connection g parent { cid := newId, target := none, name := some n }).1
  | .addConnection src tgt n =>
      (insert_connection g src { cid := newId, target := some tgt, name := n }).1
  | .editConnection cid t n =>
      mutate_connection g cid (fun c =>
        { c with
          target := match t with | some v => some v | none => c.target
          name := match n with | some v => some v | none => c.name })
  | .deleteConnection cid => (remove_connection g cid).1
  | .setInitialScene sid => { g with initial := some sid }
  | .placeholder => g

/-- Modelled from the spec: the handle_action contract (spec 4.2):
validate target existence, perform the write-through persistence call
(the oracle argument: some id on success, carrying the store-assigned
id; none on failure), and only on success apply the in-memory mutation.
The Bool is the event polarity: false is an error event with the graph
unchanged. -/
def handle_action (g : TourGraph) (cmd : EditorCmd) (persist : Option Int) :
    TourGraph × Bool :=
  if !(validate g cmd) then (g, false)
  else
    match persist with
    | none => (g, false)
    | some newId => (applyCmd g newId cmd, true)

/-- The EditTour dispatch of handle_client (src/main.rs:566,605): resolve
or lazily create the session (a newly created session is stored in the
registry immediately, as get_or_create_editor_session does), run the
command processor, and store the resulting state back into the registry
only when the processor reported success; on an error event the registry
is left as it was. -/
def dispatch_edit (reg : List (List Char × TourGraph)) (username : List Char)
    (tour_id : Int) (loaded : TourGraph) (cmd : EditorCmd)
    (persist : Option Int) : List (List Char × TourGraph) :=
  let key := session_key username tour_id
  let p :=
    match alookup key reg with
    | some g => (reg, g)
    | none => (insertKey reg key loaded, loaded)
  let r := handle_action p.2 cmd persist
  if r.2 then insertKey p.1 key r.1 else p.1

/-- C2: for every editor command, when the write-through persistence
call fails, the session registry after the dispatch is identical to the
registry before it: the graph held for the (user, tour) key is exactly
the graph held before, so no in-memory mutation is applied on a failed
write and the in-memory state and the store do not diverge. -/
theorem dispatch_edit_persist_failure (reg : List (List Char × TourGraph))
    (u : List Char) (t : Int) (loaded g : TourGraph) (cmd : EditorCmd)
    (h : alookup (session_key u t) reg = some g) :
    dispatch_edit reg u t loaded cmd none = reg := by
  simp only [dispatch_edit, h]
  cases hv : validate g cmd <;> simp [handle_action, hv]

/-- A one-scene graph used by the concrete dispatch witness. -/
def exGraph : TourGraph :=
  { scenes := [{ sid := 1, name := "Lobby", filePath := "a.jpg", conns := [] }]
    initial := some 1
    sceneIdx := [(1, 0)]
    connIdx := [] }

/-- C2 witness: a failing write-through for an AddScene command leaves
the concrete one-session registry untouched. -/
theorem dispatch_edit_persist_failure_witness :
    dispatch_edit [(session_key "alice".data 1, exGraph)] "alice".data 1
      emptyGraph (.addScene "Hall" "b.jpg") none
      = [(session_key "alice".data 1, exGraph)] :=
  dispatch_edit_persist_failure [(session_key "alice".data 1, exGraph)]
    "alice".data 1 emptyGraph exGraph (.addScene "Hall" "b.jpg") (by rfl)

/-- The three program points of get_or_create_editor_session
(src/main.rs:262) at which the registry lock is taken or released: the
read-locked absence check, the lock-free construction (EditorState::new
plus load_from_database), and the write-locked insert.  Constructed
instances are numbered so that distinct constructions are
distinguishable. -/
inductive Phase where
  | check
  | construct
  | insert (g : Nat)
  | done
  deriving Repr, DecidableEq

/-- The shared registry plus the two connection tasks: program counter
and result per task, the next construction number, and how many
constructions have happened. -/
structure RaceState where
  reg : List (List Char × Nat)
  t1 : Phase
  t2 : Phase
  r1 : Option Nat
  r2 : Option Nat
  fresh : Nat
  built : Nat
  deriving Repr, DecidableEq

/-- One atomic step of one task of get_or_create_editor_session: the
check finds an existing session and finishes with it, or moves on to
construct; construction numbers a fresh instance; the insert stores the
constructed instance (overwriting) and finishes with it. -/
def stepOne (key : List Char) (reg : List (List Char × Nat))
    (fresh built : Nat) (pc : Phase) (r : Option Nat) :
    List (List Char × Nat) × Nat × Nat × Phase × Option Nat :=
  match pc with
  | .check =>
    match alookup key reg with
    | some g => (reg, fresh, built, .done, some g)
    | none => (reg, fresh, built, .construct, r)
  | .construct => (reg, fresh + 1, built + 1, .insert fresh, r)
  | .insert g => (insertKey reg key g, fresh, built, .done, some g)
  | .done => (reg, fresh, built, .done, r)

/-- Advance the chosen task (true = first caller) one atomic step. -/
def raceStep (key : List Char) (s : RaceState) (first : Bool) : RaceState :=
  if first then
    let o := stepOne key s.reg s.fresh s.built s.t1 s.r1
    { s with reg := o.1, fresh := o.2.1, built := o.2.2.1,
             t1 := o.2.2.2.1, r1 := o.2.2.2.2 }
  else
    let o := stepOne key s.reg s.fresh s.built s.t2 s.r2
    { s with reg := o.1, fresh := o.2.1, built := o.2.2.1,
             t2 := o.2.2.2.1, r2 := o.2.2.2.2 }

/-- Run an interleaving schedule from a state. -/
def raceRun (key : List Char) (s : RaceState) (sched : List Bool) : RaceState :=
  sched.foldl (raceStep key) s

/-- Both tasks at their first access of the same key, empty registry. -/
def raceInit : RaceState :=
  { reg := [], t1 := .check, t2 := .check, r1 := none, r2 := none,
    fresh := 0, built := 0 }

/-- The contended (user, tour) key of the two first accesses. -/
def raceKey : List Char := session_key "alice".data 1

/-- C8 counterexample: under the interleaving in which both absence
checks run before the first insert (legal, because the lock is released
between the check and the construction), both callers construct their
own graph: two instances are built and the second caller finishes with
its own instance 1, not the first caller's instance 0. -/
theorem get_or_create_constructs_two_graphs :
    (raceRun raceKey raceInit [true, false, true, true, false, false]).built = 2 ∧
    (raceRun raceKey raceInit [true, false, true, true, false, false]).r1 = some 0 ∧
    (raceRun raceKey raceInit [true, false, true, true, false, false]).r2 = some 1 ∧
    (raceRun raceKey raceInit [true, false, true, true, false, false]).r2 ≠
      (raceRun raceKey raceInit [true, false, true, true, false, false]).r1 := by
  decide

/-- C8 amended: whether one graph or two are constructed depends on the
interleaving.  When the first access completes its insert before the
second access checks, exactly one instance is built and the second
caller receives the first caller's instance; but the registry lock is
not held across check, construction and insert, so when both checks
precede the first insert each caller constructs and keeps its own
instance and the later insert overwrites the earlier one in the
registry. -/
theorem get_or_create_schedule_dependent :
    ((raceRun raceKey raceInit [true, true, true, false, false, false]).built = 1 ∧
     (raceRun raceKey raceInit [true, true, true, false, false, false]).r1 = some 0 ∧
     (raceRun raceKey raceInit [true, true, true, false, false, false]).r2 = some 0) ∧
    ((raceRun raceKey raceInit [true, false, true, true, false, false]).built = 2 ∧
     (raceRun raceKey raceInit [true, false, true, true, false, false]).r1 = some 0 ∧
     (raceRun raceKey raceInit [true, false, true, true, false, false]).r2 = some 1) := by
  decide

end VTour
